import Mathlib

/-!
Verification of the event-mailbox and datagram core of the `neqo` repository.

The embedding translates `src/neqo-transport/src/events.rs` and
`src/neqo-common/src/datagram.rs`:

* `ConnectionEvent` embeds the Rust enum of the same name; its derived
  `Ord`/`PartialOrd` (lexicographic on variant declaration index, then on the
  fields in declaration order) is realised by the injective key function
  `ConnectionEvent.key` into a lexicographic product, lifted to a
  `LinearOrder`.
* `ConnectionEvents` embeds the Rust struct: its `Rc<RefCell<BTreeSet<_>>>`
  becomes explicit state passing over the BTreeSet's canonical representation,
  a strictly sorted list; `btreeInsert` embeds `BTreeSet::insert` on that
  representation.  `u64` values carry no arithmetic here, so they are
  embedded as `Nat`.
* `Datagram` embeds the Rust struct; `Vec<u8>` becomes a list of byte values.
-/

/-- Modelled from the spec: `StreamType` lives in `frame.rs`, which is not part
of the sources; the spec's data model lists its values as `{uni, bidi}`. -/
inductive StreamType
  | uni
  | bidi
deriving DecidableEq, Repr

/-- Rank of a `StreamType` value in declaration order, used for its ordering. -/
def StreamType.rank : StreamType → Nat
  | .uni => 0
  | .bidi => 1

/-- `AppError` is `u64` in the sources (`pub type AppError = u64`); the spec
types `appError: u64`.  No arithmetic is performed, so `Nat` embeds it. -/
abbrev AppError := Nat

/-- Modelled from the spec: `CloseError` lives in `frame.rs`, which is not part
of the sources; the spec says event fields use their natural ordering,
"numeric ascending for ids/codes", so it is modelled as a numeric code. -/
abbrev CloseError := Nat

/-- Modelled from the spec: `StreamId` is not in the sources; it wraps a `u64`
exposed by `as_u64()`, and every mailbox operation immediately converts it with
`stream_id.as_u64()`, so it is embedded as the underlying number. -/
abbrev StreamId := Nat

/-- Embeds the Rust enum `ConnectionEvent` from `events.rs` (variants in
declaration order, fields in declaration order). -/
inductive ConnectionEvent
  | NewStream (stream_id : Nat) (stream_type : StreamType)
  | SendStreamWritable (stream_id : Nat)
  | RecvStreamReadable (stream_id : Nat)
  | RecvStreamReset (stream_id : Nat) (app_error : AppError)
  | SendStreamStopSending (stream_id : Nat) (app_error : AppError)
  | SendStreamComplete (stream_id : Nat)
  | SendStreamCreatable (stream_type : StreamType)
  | ConnectionClosed (error_code : CloseError) (frame_type : Nat)
      (reason_phrase : String)
  | ZeroRttRejected
deriving DecidableEq, Repr

/-- The variant's index in declaration order: the primary key of the derived
`Ord` on the Rust enum. -/
def ConnectionEvent.variantRank : ConnectionEvent → Nat
  | .NewStream _ _ => 0
  | .SendStreamWritable _ => 1
  | .RecvStreamReadable _ => 2
  | .RecvStreamReset _ _ => 3
  | .SendStreamStopSending _ _ => 4
  | .SendStreamComplete _ => 5
  | .SendStreamCreatable _ => 6
  | .ConnectionClosed _ _ _ => 7
  | .ZeroRttRejected => 8

/-- Comparison key realising the derived `Ord` of the Rust enum:
variant declaration index first, then the field tuple in declaration order
(numeric fields padded with `0`, the string field padded with `""`; the padding
components are compared only between values of the same variant, where they are
identical, so they never influence the order). -/
def ConnectionEvent.key (e : ConnectionEvent) :
    Lex (Nat × Lex (Nat × Lex (Nat × String))) :=
  match e with
  | .NewStream i t => toLex (0, toLex (i, toLex (t.rank, "")))
  | .SendStreamWritable i => toLex (1, toLex (i, toLex (0, "")))
  | .RecvStreamReadable i => toLex (2, toLex (i, toLex (0, "")))
  | .RecvStreamReset i a => toLex (3, toLex (i, toLex (a, "")))
  | .SendStreamStopSending i a => toLex (4, toLex (i, toLex (a, "")))
  | .SendStreamComplete i => toLex (5, toLex (i, toLex (0, "")))
  | .SendStreamCreatable t => toLex (6, toLex (t.rank, toLex (0, "")))
  | .ConnectionClosed c f r => toLex (7, toLex (c, toLex (f, r)))
  | .ZeroRttRejected => toLex (8, toLex (0, toLex (0, "")))

theorem StreamType.rank_eq_iff (a b : StreamType) :
    StreamType.rank a = StreamType.rank b ↔ a = b := by
  cases a <;> cases b <;> simp [StreamType.rank]

theorem ConnectionEvent.key_injective : Function.Injective ConnectionEvent.key := by
  intro a b h
  cases a <;> cases b <;>
    simp only [ConnectionEvent.key, toLex_inj, Prod.mk.injEq] at h <;>
    simp_all [StreamType.rank_eq_iff]

instance : LinearOrder ConnectionEvent :=
  LinearOrder.lift' ConnectionEvent.key ConnectionEvent.key_injective

/-- Embeds the Rust struct `ConnectionEvents`: the shared
`Rc<RefCell<BTreeSet<ConnectionEvent>>>` cell becomes explicit state holding
the BTreeSet's canonical representation, its strictly sorted element list. -/
structure ConnectionEvents where
  events : List ConnectionEvent
deriving DecidableEq, Repr

/-- `ConnectionEvents::default()`: the derived `Default` builds an empty set. -/
def ConnectionEvents.default : ConnectionEvents := ⟨[]⟩

/-- `BTreeSet::insert` on the sorted-list representation: walk to the first
element not below the new one; drop the new element if an equal one is already
present (the set keeps its existing element), else splice it in. -/
def btreeInsert (e : ConnectionEvent) : List ConnectionEvent → List ConnectionEvent
  | [] => [e]
  | x :: xs =>
    if e < x then e :: x :: xs
    else if e = x then x :: xs
    else x :: btreeInsert e xs

/-- `ConnectionEvents::insert` (`self.events.borrow_mut().insert(event)`). -/
def ConnectionEvents.insert (s : ConnectionEvents) (event : ConnectionEvent) :
    ConnectionEvents :=
  ⟨btreeInsert event s.events⟩

/-- `ConnectionEvents::new_stream`. -/
def ConnectionEvents.new_stream (s : ConnectionEvents) (stream_id : StreamId)
    (stream_type : StreamType) : ConnectionEvents :=
  s.insert (.NewStream stream_id stream_type)

/-- `ConnectionEvents::send_stream_writable`. -/
def ConnectionEvents.send_stream_writable (s : ConnectionEvents)
    (stream_id : StreamId) : ConnectionEvents :=
  s.insert (.SendStreamWritable stream_id)

/-- `ConnectionEvents::recv_stream_readable`. -/
def ConnectionEvents.recv_stream_readable (s : ConnectionEvents)
    (stream_id : StreamId) : ConnectionEvents :=
  s.insert (.RecvStreamReadable stream_id)

/-- `ConnectionEvents::recv_stream_reset`. -/
def ConnectionEvents.recv_stream_reset (s : ConnectionEvents)
    (stream_id : StreamId) (app_error : AppError) : ConnectionEvents :=
  s.insert (.RecvStreamReset stream_id app_error)

/-- `ConnectionEvents::send_stream_stop_sending`. -/
def ConnectionEvents.send_stream_stop_sending (s : ConnectionEvents)
    (stream_id : StreamId) (app_error : AppError) : ConnectionEvents :=
  s.insert (.SendStreamStopSending stream_id app_error)

/-- `ConnectionEvents::send_stream_complete`. -/
def ConnectionEvents.send_stream_complete (s : ConnectionEvents)
    (stream_id : StreamId) : ConnectionEvents :=
  s.insert (.SendStreamComplete stream_id)

/-- `ConnectionEvents::send_stream_creatable`. -/
def ConnectionEvents.send_stream_creatable (s : ConnectionEvents)
    (stream_type : StreamType) : ConnectionEvents :=
  s.insert (.SendStreamCreatable stream_type)

/-- `ConnectionEvents::connection_closed` (`reason_phrase.to_owned()` copies
the string). -/
def ConnectionEvents.connection_closed (s : ConnectionEvents)
    (error_code : CloseError) (frame_type : Nat) (reason_phrase : String) :
    ConnectionEvents :=
  s.insert (.ConnectionClosed error_code frame_type reason_phrase)

/-- `ConnectionEvents::client_0rtt_rejected`:
`self.events.borrow_mut().clear();` then
`self.insert(ConnectionEvent::ZeroRttRejected);`. -/
def ConnectionEvents.client_0rtt_rejected (_s : ConnectionEvents) :
    ConnectionEvents :=
  (ConnectionEvents.mk []).insert .ZeroRttRejected

/-- `ConnectionEvents::events` — the spec's `drain()`:
`self.events.replace(BTreeSet::new())` returns the former contents (first
component, in the set's sorted order) and leaves the mailbox empty (second
component, the successor state). -/
def ConnectionEvents.drain (s : ConnectionEvents) :
    List ConnectionEvent × ConnectionEvents :=
  (s.events, ⟨[]⟩)

/-- One call into the mailbox: the eight typed insert operations,
`client_0rtt_rejected`, and `events` (drain, keeping the successor state). -/
inductive MailboxOp
  | new_stream (stream_id : StreamId) (stream_type : StreamType)
  | send_stream_writable (stream_id : StreamId)
  | recv_stream_readable (stream_id : StreamId)
  | recv_stream_reset (stream_id : StreamId) (app_error : AppError)
  | send_stream_stop_sending (stream_id : StreamId) (app_error : AppError)
  | send_stream_complete (stream_id : StreamId)
  | send_stream_creatable (stream_type : StreamType)
  | connection_closed (error_code : CloseError) (frame_type : Nat)
      (reason_phrase : String)
  | client_0rtt_rejected
  | drain

/-- Apply one mailbox operation to a state. -/
def applyOp (s : ConnectionEvents) : MailboxOp → ConnectionEvents
  | .new_stream i t => s.new_stream i t
  | .send_stream_writable i => s.send_stream_writable i
  | .recv_stream_readable i => s.recv_stream_readable i
  | .recv_stream_reset i a => s.recv_stream_reset i a
  | .send_stream_stop_sending i a => s.send_stream_stop_sending i a
  | .send_stream_complete i => s.send_stream_complete i
  | .send_stream_creatable t => s.send_stream_creatable t
  | .connection_closed c f r => s.connection_closed c f r
  | .client_0rtt_rejected => s.client_0rtt_rejected
  | .drain => s.drain.2

/-- Run a sequence of mailbox operations from the freshly constructed
(default, empty) mailbox. -/
def runOps (ops : List MailboxOp) : ConnectionEvents :=
  ops.foldl applyOp ConnectionEvents.default

/-- Insert a list of already constructed events one by one. -/
def insertAll (l : List ConnectionEvent) : ConnectionEvents :=
  l.foldl ConnectionEvents.insert ConnectionEvents.default

/-- Modelled from the spec: endpoints (`std::net::SocketAddr`) are opaque
values kept only to be read back; modelled as an address/port pair. -/
structure SocketAddr where
  addr : Nat
  port : Nat
deriving DecidableEq, Repr

/-- Embeds the Rust struct `Datagram` from `datagram.rs`; `Vec<u8>` becomes a
list of byte values. -/
structure Datagram where
  src : SocketAddr
  dst : SocketAddr
  d : List Nat
deriving DecidableEq, Repr

/-- `Datagram::new` (`d.into()` is the identity conversion on owned bytes). -/
def Datagram.new (src : SocketAddr) (dst : SocketAddr) (d : List Nat) :
    Datagram :=
  ⟨src, dst, d⟩

/-- `Datagram::source`. -/
def Datagram.source (g : Datagram) : SocketAddr := g.src

/-- `Datagram::destination`. -/
def Datagram.destination (g : Datagram) : SocketAddr := g.dst

/-- The `Deref` impl: the read-only view over the payload bytes. -/
def Datagram.deref (g : Datagram) : List Nat := g.d

/-- The spec's secondary key, stated in the spec's own words: the field tuple
compared in declared field order, numeric ascending for ids and codes, lexical
for strings; only values of the same variant are related. -/
def sameVariantFieldsLt : ConnectionEvent → ConnectionEvent → Prop
  | .NewStream i t, .NewStream j u => i < j ∨ (i = j ∧ t.rank < u.rank)
  | .SendStreamWritable i, .SendStreamWritable j => i < j
  | .RecvStreamReadable i, .RecvStreamReadable j => i < j
  | .RecvStreamReset i a, .RecvStreamReset j b => i < j ∨ (i = j ∧ a < b)
  | .SendStreamStopSending i a, .SendStreamStopSending j b =>
      i < j ∨ (i = j ∧ a < b)
  | .SendStreamComplete i, .SendStreamComplete j => i < j
  | .SendStreamCreatable t, .SendStreamCreatable u => t.rank < u.rank
  | .ConnectionClosed c f r, .ConnectionClosed c2 f2 r2 =>
      c < c2 ∨ (c = c2 ∧ (f < f2 ∨ (f = f2 ∧ r < r2)))
  | _, _ => False

/-- The spec's total order on events, stated in the spec's own words: primary
key is the variant's rank in declaration order, secondary key the field
tuple. -/
def specLt (a b : ConnectionEvent) : Prop :=
  a.variantRank < b.variantRank
    ∨ (a.variantRank = b.variantRank ∧ sameVariantFieldsLt a b)

theorem lt_iff_specLt (a b : ConnectionEvent) : a < b ↔ specLt a b := by
  show a.key < b.key ↔ specLt a b
  cases a <;> cases b <;>
    simp [ConnectionEvent.key, ConnectionEvent.variantRank, specLt,
      sameVariantFieldsLt, Prod.Lex.lt_iff, lt_irrefl]

theorem mem_btreeInsert (e a : ConnectionEvent) (l : List ConnectionEvent) :
    a ∈ btreeInsert e l ↔ a = e ∨ a ∈ l := by
  induction l with
  | nil => simp [btreeInsert]
  | cons x xs ih =>
    by_cases h1 : e < x
    · rw [show btreeInsert e (x :: xs) = e :: x :: xs from by
        simp [btreeInsert, h1]]
      simp only [List.mem_cons]
    · by_cases h2 : e = x
      · rw [show btreeInsert e (x :: xs) = x :: xs from by
          simp [btreeInsert, h1, h2]]
        subst h2
        simp only [List.mem_cons]
        tauto
      · rw [show btreeInsert e (x :: xs) = x :: btreeInsert e xs from by
          simp [btreeInsert, h1, h2]]
        simp only [List.mem_cons, ih]
        tauto

theorem sorted_btreeInsert {l : List ConnectionEvent}
    (hl : l.Sorted (· < ·)) (e : ConnectionEvent) :
    (btreeInsert e l).Sorted (· < ·) := by
  induction l with
  | nil => simp [btreeInsert]
  | cons x xs ih =>
    rw [List.sorted_cons] at hl
    obtain ⟨hx, hxs⟩ := hl
    by_cases h1 : e < x
    · simp only [btreeInsert, if_pos h1, List.sorted_cons, List.mem_cons]
      refine ⟨?_, hx, hxs⟩
      rintro b (rfl | hb)
      · exact h1
      · exact lt_trans h1 (hx b hb)
    · by_cases h2 : e = x
      · simp only [btreeInsert, if_neg h1, if_pos h2, List.sorted_cons]
        exact ⟨hx, hxs⟩
      · have hxe : x < e := by
          rcases lt_trichotomy e x with h | h | h
          · exact absurd h h1
          · exact absurd h h2
          · exact h
        simp only [btreeInsert, if_neg h1, if_neg h2, List.sorted_cons]
        refine ⟨?_, ih hxs⟩
        intro b hb
        rcases (mem_btreeInsert e b xs).1 hb with rfl | hb
        · exact hxe
        · exact hx b hb

theorem btreeInsert_idem (e : ConnectionEvent) (l : List ConnectionEvent) :
    btreeInsert e (btreeInsert e l) = btreeInsert e l := by
  induction l with
  | nil => simp [btreeInsert, lt_irrefl]
  | cons x xs ih =>
    by_cases h1 : e < x
    · have h2 : btreeInsert e (x :: xs) = e :: x :: xs := by
        simp [btreeInsert, h1]
      rw [h2]
      simp [btreeInsert, lt_irrefl]
    · by_cases h2 : e = x
      · have h3 : btreeInsert e (x :: xs) = x :: xs := by
          simp [btreeInsert, h1, h2]
        rw [h3]
        exact h3
      · have h3 : btreeInsert e (x :: xs) = x :: btreeInsert e xs := by
          simp [btreeInsert, h1, h2]
        rw [h3]
        simp [btreeInsert, h1, h2, ih]

theorem sorted_eq_of_mem_iff {l₁ l₂ : List ConnectionEvent}
    (h₁ : l₁.Sorted (· < ·)) (h₂ : l₂.Sorted (· < ·))
    (h : ∀ x, x ∈ l₁ ↔ x ∈ l₂) : l₁ = l₂ := by
  haveI : IsAntisymm ConnectionEvent (· < ·) :=
    ⟨fun a b hab hba => absurd (lt_trans hab hba) (lt_irrefl a)⟩
  exact List.eq_of_perm_of_sorted
    ((List.perm_ext_iff_of_nodup h₁.nodup h₂.nodup).2 h) h₁ h₂

theorem foldl_insert_mem (l : List ConnectionEvent) :
    ∀ (s : ConnectionEvents) (x : ConnectionEvent),
      x ∈ (l.foldl ConnectionEvents.insert s).events ↔ x ∈ l ∨ x ∈ s.events := by
  induction l with
  | nil => simp
  | cons e es ih =>
    intro s x
    simp only [List.foldl_cons, List.mem_cons]
    rw [ih]
    simp only [ConnectionEvents.insert, mem_btreeInsert]
    tauto

theorem foldl_insert_sorted (l : List ConnectionEvent) :
    ∀ (s : ConnectionEvents), s.events.Sorted (· < ·) →
      (l.foldl ConnectionEvents.insert s).events.Sorted (· < ·) := by
  induction l with
  | nil => exact fun _ hs => hs
  | cons e es ih =>
    intro s hs
    exact ih _ (sorted_btreeInsert hs e)

theorem applyOp_sorted {s : ConnectionEvents}
    (hs : s.events.Sorted (· < ·)) (op : MailboxOp) :
    ((applyOp s op).events).Sorted (· < ·) := by
  cases op <;>
    first
      | exact sorted_btreeInsert hs _
      | simp [applyOp, ConnectionEvents.client_0rtt_rejected,
          ConnectionEvents.insert, ConnectionEvents.drain, btreeInsert]

theorem foldl_applyOp_sorted (ops : List MailboxOp) :
    ∀ s : ConnectionEvents, s.events.Sorted (· < ·) →
      ((ops.foldl applyOp s).events).Sorted (· < ·) := by
  induction ops with
  | nil => exact fun _ hs => hs
  | cons op ops ih =>
    intro s hs
    exact ih _ (applyOp_sorted hs op)

theorem runOps_sorted (ops : List MailboxOp) :
    (runOps ops).events.Sorted (· < ·) :=
  foldl_applyOp_sorted ops ConnectionEvents.default List.sorted_nil

theorem ConnectionEvents.eq_of_events_eq {s₁ s₂ : ConnectionEvents}
    (h : s₁.events = s₂.events) : s₁ = s₂ := by
  cases s₁
  cases s₂
  cases h
  rfl

/-- C1: `zeroRttRejected()` first clears the whole pending set and then
inserts `ZeroRttRejected`, so from every prior mailbox state the next drain
returns exactly `[ZeroRttRejected]`; in particular inserting
`recvStreamReadable(1)`, then `sendStreamWritable(2)`, then calling
`zeroRttRejected()` and draining yields exactly `[ZeroRttRejected]`. -/
theorem zeroRttRejected_supersedes_all_pending :
    (∀ s : ConnectionEvents,
        (s.client_0rtt_rejected).drain.1 = [ConnectionEvent.ZeroRttRejected])
    ∧ (((ConnectionEvents.default.recv_stream_readable 1).send_stream_writable
          2).client_0rtt_rejected).drain.1
        = [ConnectionEvent.ZeroRttRejected] :=
  ⟨fun _ => rfl, rfl⟩

/-- C2: for any sequence of inserted events, drain returns them sorted by the
spec's total order (variant rank in declaration order first, then the field
tuple in declared field order), the drained events are exactly the inserted
ones, and the resulting mailbox state is independent of insertion order. -/
theorem drain_sorted_and_insertion_order_independent
    (l : List ConnectionEvent) :
    ((insertAll l).drain.1).Sorted specLt
    ∧ (∀ e, e ∈ (insertAll l).drain.1 ↔ e ∈ l)
    ∧ (∀ l₂, l.Perm l₂ → insertAll l₂ = insertAll l) := by
  have hsorted : (insertAll l).events.Sorted (· < ·) :=
    foldl_insert_sorted l ConnectionEvents.default List.sorted_nil
  refine ⟨?_, ?_, ?_⟩
  · exact List.Pairwise.imp (fun h => (lt_iff_specLt _ _).1 h) hsorted
  · intro e
    have h := foldl_insert_mem l ConnectionEvents.default e
    simpa [insertAll, ConnectionEvents.drain, ConnectionEvents.default] using h
  · intro l₂ hperm
    have h₂ : (insertAll l₂).events.Sorted (· < ·) :=
      foldl_insert_sorted l₂ ConnectionEvents.default List.sorted_nil
    apply ConnectionEvents.eq_of_events_eq
    apply sorted_eq_of_mem_iff h₂ hsorted
    intro x
    simp only [insertAll, foldl_insert_mem]
    simp [hperm.mem_iff]

/-- C3: inserting the identical event value twice leaves the mailbox in the
same state as inserting it once, and (on a sorted, i.e. reachable, mailbox)
the next drain contains exactly one entry for it. -/
theorem insert_idempotent (s : ConnectionEvents) (e : ConnectionEvent) :
    (s.insert e).insert e = s.insert e
    ∧ (s.events.Sorted (· < ·) →
        (((s.insert e).insert e).drain.1).count e = 1) := by
  constructor
  · exact ConnectionEvents.eq_of_events_eq (btreeInsert_idem e s.events)
  · intro hs
    have hnodup : (btreeInsert e (btreeInsert e s.events)).Nodup :=
      (sorted_btreeInsert (sorted_btreeInsert hs e) e).nodup
    have hmem : e ∈ btreeInsert e (btreeInsert e s.events) :=
      (mem_btreeInsert e e _).2 (Or.inl rfl)
    exact List.count_eq_one_of_mem hnodup hmem

theorem insert_idempotent_witness :
    ((ConnectionEvents.default.insert .ZeroRttRejected).insert .ZeroRttRejected
        = ConnectionEvents.default.insert .ZeroRttRejected)
    ∧ ((((ConnectionEvents.default.insert .ZeroRttRejected).insert
          .ZeroRttRejected).drain.1).count .ZeroRttRejected = 1) :=
  ⟨(insert_idempotent ConnectionEvents.default .ZeroRttRejected).1,
    (insert_idempotent ConnectionEvents.default .ZeroRttRejected).2
      List.sorted_nil⟩

/-- C4: deduplication is by full structural value, not by variant: two events
of the same variant with distinct field tuples both survive; in particular
`recvStreamReadable(1)` and `recvStreamReadable(2)` both appear (as two
entries) in the drained sequence. -/
theorem dedup_by_full_value :
    (∀ (s : ConnectionEvents) (e₁ e₂ : ConnectionEvent), e₁ ≠ e₂ →
        e₁ ∈ ((s.insert e₁).insert e₂).drain.1
        ∧ e₂ ∈ ((s.insert e₁).insert e₂).drain.1)
    ∧ ((ConnectionEvents.default.recv_stream_readable 1).recv_stream_readable
          2).drain.1
        = [ConnectionEvent.RecvStreamReadable 1,
            ConnectionEvent.RecvStreamReadable 2] := by
  constructor
  · intro s e₁ e₂ _
    constructor
    · exact (mem_btreeInsert e₂ e₁ _).2
        (Or.inr ((mem_btreeInsert e₁ e₁ s.events).2 (Or.inl rfl)))
    · exact (mem_btreeInsert e₂ e₂ _).2 (Or.inl rfl)
  · decide

theorem dedup_by_full_value_witness :
    ConnectionEvent.RecvStreamReadable 1
        ∈ ((ConnectionEvents.default.insert
            (.RecvStreamReadable 1)).insert (.RecvStreamReadable 2)).drain.1
    ∧ ConnectionEvent.RecvStreamReadable 2
        ∈ ((ConnectionEvents.default.insert
            (.RecvStreamReadable 1)).insert (.RecvStreamReadable 2)).drain.1 :=
  dedup_by_full_value.1 ConnectionEvents.default
    (.RecvStreamReadable 1) (.RecvStreamReadable 2) (by decide)

/-- C5: drain atomically empties the mailbox while returning its former
contents: the successor state is the empty mailbox, so an immediate second
drain returns the empty sequence. -/
theorem drain_empties (s : ConnectionEvents) :
    s.drain.1 = s.events
    ∧ s.drain.2 = ConnectionEvents.default
    ∧ (s.drain.2).drain.1 = [] :=
  ⟨rfl, rfl, rfl⟩

/-- C6: `NetworkDatagram` construction round-trips: `source()`,
`destination()` and the payload view return exactly the three inputs, for
every source, destination and byte sequence (including the empty one). -/
theorem datagram_round_trip (src dst : SocketAddr) (d : List Nat) :
    (Datagram.new src dst d).source = src
    ∧ (Datagram.new src dst d).destination = dst
    ∧ (Datagram.new src dst d).deref = d :=
  ⟨rfl, rfl, rfl⟩

/-- C7: a freshly constructed, never-inserted-into mailbox is empty and drain
on it returns the empty sequence. -/
theorem fresh_mailbox_drain_empty :
    ConnectionEvents.default.events = []
    ∧ ConnectionEvents.default.drain.1 = [] :=
  ⟨rfl, rfl⟩

/-- C8: no operation of the core is fallible: every mailbox operation
(typed inserts, `zeroRttRejected`, drain), datagram construction, and each
accessor (`source()`, `destination()`, the payload view) is a total function
producing exactly one result, with no error value in any result type. -/
theorem core_operations_infallible :
    (∀ (s : ConnectionEvents) (op : MailboxOp),
        ∃! s' : ConnectionEvents, applyOp s op = s')
    ∧ (∀ s : ConnectionEvents,
        ∃! r : List ConnectionEvent × ConnectionEvents, s.drain = r)
    ∧ (∀ (src dst : SocketAddr) (d : List Nat),
        ∃! g : Datagram, Datagram.new src dst d = g)
    ∧ (∀ g : Datagram, ∃! a : SocketAddr, g.source = a)
    ∧ (∀ g : Datagram, ∃! a : SocketAddr, g.destination = a)
    ∧ (∀ g : Datagram, ∃! p : List Nat, g.deref = p) :=
  ⟨fun s op => ⟨applyOp s op, rfl, fun _ h => h.symm⟩,
    fun s => ⟨s.drain, rfl, fun _ h => h.symm⟩,
    fun src dst d => ⟨Datagram.new src dst d, rfl, fun _ h => h.symm⟩,
    fun g => ⟨g.source, rfl, fun _ h => h.symm⟩,
    fun g => ⟨g.destination, rfl, fun _ h => h.symm⟩,
    fun g => ⟨g.deref, rfl, fun _ h => h.symm⟩⟩

/-- C9: every typed insert operation other than `zeroRttRejected` only adds:
the new pending set holds exactly the old events plus the single constructed
event, so every previously pending event is still pending. -/
theorem typed_inserts_only_add (s : ConnectionEvents) (x : ConnectionEvent)
    (i : StreamId) (t : StreamType) (a : AppError) (c : CloseError)
    (f : Nat) (r : String) :
    (x ∈ (s.new_stream i t).events
        ↔ x = .NewStream i t ∨ x ∈ s.events)
    ∧ (x ∈ (s.send_stream_writable i).events
        ↔ x = .SendStreamWritable i ∨ x ∈ s.events)
    ∧ (x ∈ (s.recv_stream_readable i).events
        ↔ x = .RecvStreamReadable i ∨ x ∈ s.events)
    ∧ (x ∈ (s.recv_stream_reset i a).events
        ↔ x = .RecvStreamReset i a ∨ x ∈ s.events)
    ∧ (x ∈ (s.send_stream_stop_sending i a).events
        ↔ x = .SendStreamStopSending i a ∨ x ∈ s.events)
    ∧ (x ∈ (s.send_stream_complete i).events
        ↔ x = .SendStreamComplete i ∨ x ∈ s.events)
    ∧ (x ∈ (s.send_stream_creatable t).events
        ↔ x = .SendStreamCreatable t ∨ x ∈ s.events)
    ∧ (x ∈ (s.connection_closed c f r).events
        ↔ x = .ConnectionClosed c f r ∨ x ∈ s.events) :=
  ⟨mem_btreeInsert _ x s.events, mem_btreeInsert _ x s.events,
    mem_btreeInsert _ x s.events, mem_btreeInsert _ x s.events,
    mem_btreeInsert _ x s.events, mem_btreeInsert _ x s.events,
    mem_btreeInsert _ x s.events, mem_btreeInsert _ x s.events⟩

/-- C10: from a fresh mailbox, after any sequence of insert,
`zeroRttRejected` and drain operations, the sequence returned by drain is
duplicate-free: the mailbox state is a set in every reachable state. -/
theorem drain_duplicate_free (ops : List MailboxOp) :
    ((runOps ops).drain.1).Nodup :=
  (runOps_sorted ops).nodup

theorem drain_sorted_and_insertion_order_independent_witness :
    insertAll [ConnectionEvent.RecvStreamReadable 4,
        ConnectionEvent.NewStream 4 .uni]
      = insertAll [ConnectionEvent.NewStream 4 .uni,
          ConnectionEvent.RecvStreamReadable 4] :=
  (drain_sorted_and_insertion_order_independent
      [ConnectionEvent.NewStream 4 .uni,
        ConnectionEvent.RecvStreamReadable 4]).2.2
    [ConnectionEvent.RecvStreamReadable 4, ConnectionEvent.NewStream 4 .uni]
    (by decide)
